import Mathlib

set_option autoImplicit false

/-!
Shallow embedding of the SiteView backend entity layer (the Convex modules
`clients.ts`, `projects.ts`, `visits.ts`, `photos.ts`, `projectAssignments.ts`
together with `schema.ts`), and proofs of the spec's testable properties.

Each table is a list of rows in creation order; a row is an allocator-assigned
numeric id together with the document.  The store primitives are modelled with
the platform's documented semantics: `get` resolves an id or returns the
absence sentinel, `insert` appends a fresh row, `patch` and `delete` raise an
error when the id does not resolve, and an index-equality query followed by
`collect` returns the matching rows in creation order (all matches share the
index key, so index order coincides with creation order).  `unique` raises an
error when more than one row matches.  Fallible operations return
`Except String`.
-/

namespace SiteView

/-- Exterior capture type of a Visit: union of the literals "splat" and "video". -/
inductive ExteriorType where
  | splat
  | video
deriving DecidableEq, Repr

/-- Optional Photo category: union of four literals. -/
inductive Category where
  | plumbing
  | electrical
  | framing
  | general
deriving DecidableEq, Repr

/-- ProjectAssignment role: union of the literals "operator" and "client". -/
inductive Role where
  | operator
  | client
deriving DecidableEq, Repr

/-- Client document (schema.ts: name, email). -/
structure Client where
  name : String
  email : String
deriving DecidableEq, Repr

/-- Project document (schema.ts: clientId, name, address). -/
structure Project where
  clientId : Nat
  name : String
  address : String
deriving DecidableEq, Repr

/-- Visit document (schema.ts). -/
structure Visit where
  projectId : Nat
  date : Int
  notes : Option String
  exteriorType : ExteriorType
  splatUrl : Option String
  videoUrl : Option String
  youtube360Url : Option String
deriving DecidableEq, Repr

/-- Photo document (schema.ts). -/
structure Photo where
  visitId : Nat
  storageId : Nat
  fileUrl : String
  caption : Option String
  category : Option Category
deriving DecidableEq, Repr

/-- ProjectAssignment document (schema.ts: projectId, userId, role). -/
structure ProjectAssignment where
  projectId : Nat
  userId : Nat
  role : Role
deriving DecidableEq, Repr

/-- User document (schema.ts: name, externalId). -/
structure User where
  name : String
  externalId : String
deriving DecidableEq, Repr

/-- A stored row: the store-assigned document id plus the document. -/
structure Row (α : Type) where
  _id : Nat
  doc : α
deriving DecidableEq, Repr

/-- The whole entity store; each table in creation order, plus the id allocator. -/
structure DB where
  clients : List (Row Client)
  projects : List (Row Project)
  visits : List (Row Visit)
  photos : List (Row Photo)
  projectAssignments : List (Row ProjectAssignment)
  users : List (Row User)
  nextId : Nat
deriving DecidableEq, Repr

/-- The empty store. -/
def emptyDB : DB := ⟨[], [], [], [], [], [], 0⟩

/-- ctx.db.get: resolve an id to its row, or the absence sentinel. -/
def dbGet {α : Type} (t : List (Row α)) (id : Nat) : Option (Row α) :=
  t.find? (fun r => decide (r._id = id))

/-- Does some row of the table carry this id? -/
def hasId {α : Type} (t : List (Row α)) (id : Nat) : Bool :=
  t.any (fun r => decide (r._id = id))

/-- ctx.db.insert: append a fresh row at the end (creation order). -/
def insertRow {α : Type} (t : List (Row α)) (id : Nat) (d : α) : List (Row α) :=
  t ++ [⟨id, d⟩]

/-- The pointwise effect of ctx.db.patch: rewrite the document stored under the id. -/
def patchRows {α : Type} (t : List (Row α)) (id : Nat) (f : α → α) : List (Row α) :=
  t.map (fun r => if r._id = id then ⟨r._id, f r.doc⟩ else r)

/-- ctx.db.patch: partial update of one document; raises when the id does not resolve. -/
def patchRow {α : Type} (t : List (Row α)) (id : Nat) (f : α → α) :
    Except String (List (Row α)) :=
  if hasId t id then .ok (patchRows t id f) else .error "patch: id not found"

/-- ctx.db.delete: remove one document; raises when the id does not resolve. -/
def deleteRow {α : Type} (t : List (Row α)) (id : Nat) : Except String (List (Row α)) :=
  if hasId t id then .ok (t.filter (fun r => decide (¬ r._id = id)))
  else .error "delete: id not found"

/-- Result of .unique() on a collected query: none, the single row, or an error. -/
def uniqueRow {α : Type} (t : List (Row α)) : Except String (Option (Row α)) :=
  match t with
  | [] => .ok none
  | [r] => .ok (some r)
  | _ :: _ :: _ => .error "unique: more than one document matched"

/-- Store invariant: row ids of a table are pairwise distinct and below the allocator. -/
def tableOk {α : Type} (t : List (Row α)) (n : Nat) : Prop :=
  (t.map Row._id).Nodup ∧ ∀ r ∈ t, r._id < n

instance {α : Type} (t : List (Row α)) (n : Nat) : Decidable (tableOk t n) := by
  unfold tableOk; infer_instance

/-- Store invariant for the whole database. -/
def WF (db : DB) : Prop :=
  tableOk db.clients db.nextId ∧ tableOk db.projects db.nextId ∧
  tableOk db.visits db.nextId ∧ tableOk db.photos db.nextId ∧
  tableOk db.projectAssignments db.nextId ∧ tableOk db.users db.nextId

instance (db : DB) : Decidable (WF db) := by
  unfold WF; infer_instance

/-- photos byVisitId index query, collected. -/
def photosByVisitId (db : DB) (visitId : Nat) : List (Row Photo) :=
  db.photos.filter (fun r => decide (r.doc.visitId = visitId))

namespace Clients

/-- clients.list: every client row. -/
def list (db : DB) : List (Row Client) := db.clients

/-- clients.get: resolve one client id or return the absence sentinel. -/
def get (db : DB) (id : Nat) : Option (Row Client) := dbGet db.clients id

/-- clients.getByEmail: byEmail index lookup followed by .unique(). -/
def getByEmail (db : DB) (email : String) : Except String (Option (Row Client)) :=
  uniqueRow (db.clients.filter (fun r => decide (r.doc.email = email)))

/-- clients.create: insert a new client, returning its id. -/
def create (db : DB) (name email : String) : DB × Nat :=
  ({ db with clients := insertRow db.clients db.nextId ⟨name, email⟩,
             nextId := db.nextId + 1 }, db.nextId)

/-- clients.update: patch the defined fields; with none defined, short-circuit. -/
def update (db : DB) (id : Nat) (name? email? : Option String) :
    Except String (DB × Nat) :=
  if name?.isNone ∧ email?.isNone then .ok (db, id)
  else
    (patchRow db.clients id (fun c =>
        { c with name := name?.getD c.name, email := email?.getD c.email })).map
      (fun t => ({ db with clients := t }, id))

/-- clients.remove: unconditionally delete the one client row. -/
def remove (db : DB) (id : Nat) : Except String DB :=
  (deleteRow db.clients id).map (fun t => { db with clients := t })

end Clients

namespace Projects

/-- projects.list: all projects, or the byClientId index slice when clientId is given. -/
def list (db : DB) (clientId? : Option Nat) : List (Row Project) :=
  match clientId? with
  | some cid => db.projects.filter (fun r => decide (r.doc.clientId = cid))
  | none => db.projects

/-- projects.get. -/
def get (db : DB) (id : Nat) : Option (Row Project) := dbGet db.projects id

/-- projects.create. -/
def create (db : DB) (clientId : Nat) (name address : String) : DB × Nat :=
  ({ db with projects := insertRow db.projects db.nextId ⟨clientId, name, address⟩,
             nextId := db.nextId + 1 }, db.nextId)

/-- projects.update: only name and address are accepted; no-field calls short-circuit. -/
def update (db : DB) (id : Nat) (name? address? : Option String) :
    Except String (DB × Nat) :=
  if name?.isNone ∧ address?.isNone then .ok (db, id)
  else
    (patchRow db.projects id (fun p =>
        { p with name := name?.getD p.name, address := address?.getD p.address })).map
      (fun t => ({ db with projects := t }, id))

/-- projects.remove: unconditionally delete the one project row. -/
def remove (db : DB) (id : Nat) : Except String DB :=
  (deleteRow db.projects id).map (fun t => { db with projects := t })

end Projects

namespace Visits

/-- visits.list: byProjectId index slice. -/
def list (db : DB) (projectId : Nat) : List (Row Visit) :=
  db.visits.filter (fun r => decide (r.doc.projectId = projectId))

/-- visits.get: resolve the visit, then attach every photo on its byVisitId index; the absence sentinel when the visit does not resolve. -/
def get (db : DB) (id : Nat) : Option (Row Visit × List (Row Photo)) :=
  match dbGet db.visits id with
  | none => none
  | some visit => some (visit, photosByVisitId db id)

/-- visits.create. -/
def create (db : DB) (projectId : Nat) (date : Int) (notes : Option String)
    (exteriorType : ExteriorType) (splatUrl videoUrl youtube360Url : Option String) :
    DB × Nat :=
  let d : Visit := ⟨projectId, date, notes, exteriorType, splatUrl, videoUrl, youtube360Url⟩
  ({ db with visits := insertRow db.visits db.nextId d,
             nextId := db.nextId + 1 }, db.nextId)

/-- visits.update: patch the defined fields (projectId is not an argument); no-field calls short-circuit. -/
def update (db : DB) (id : Nat) (date? : Option Int) (notes? : Option String)
    (exteriorType? : Option ExteriorType) (splatUrl? videoUrl? youtube360Url? : Option String) :
    Except String (DB × Nat) :=
  if date?.isNone ∧ notes?.isNone ∧ exteriorType?.isNone ∧ splatUrl?.isNone ∧
      videoUrl?.isNone ∧ youtube360Url?.isNone then .ok (db, id)
  else
    (patchRow db.visits id (fun w =>
        { w with
          date := date?.getD w.date,
          notes := match notes? with | some s => some s | none => w.notes,
          exteriorType := exteriorType?.getD w.exteriorType,
          splatUrl := match splatUrl? with | some s => some s | none => w.splatUrl,
          videoUrl := match videoUrl? with | some s => some s | none => w.videoUrl,
          youtube360Url :=
            match youtube360Url? with | some s => some s | none => w.youtube360Url })).map
      (fun t => ({ db with visits := t }, id))

/-- The for-loop of visits.remove: delete each collected photo in order. -/
def deletePhotos (t : List (Row Photo)) : List (Row Photo) → Except String (List (Row Photo))
  | [] => .ok t
  | p :: ps =>
    match deleteRow t p._id with
    | .error e => .error e
    | .ok t' => deletePhotos t' ps

/-- visits.remove: collect the photos on the byVisitId index, delete each, then delete the visit. -/
def remove (db : DB) (id : Nat) : Except String DB :=
  (deletePhotos db.photos (photosByVisitId db id)).bind (fun t =>
    (deleteRow db.visits id).map (fun tv => { db with photos := t, visits := tv }))

end Visits

namespace Photos

/-- photos.list: byVisitId index slice. -/
def list (db : DB) (visitId : Nat) : List (Row Photo) := photosByVisitId db visitId

/-- photos.get. -/
def get (db : DB) (id : Nat) : Option (Row Photo) := dbGet db.photos id

/-- photos.create. -/
def create (db : DB) (visitId storageId : Nat) (fileUrl : String)
    (caption : Option String) (category : Option Category) : DB × Nat :=
  let d : Photo := ⟨visitId, storageId, fileUrl, caption, category⟩
  ({ db with photos := insertRow db.photos db.nextId d,
             nextId := db.nextId + 1 }, db.nextId)

/-- photos.update: only caption and category are accepted; no-field calls short-circuit. -/
def update (db : DB) (id : Nat) (caption? : Option String) (category? : Option Category) :
    Except String (DB × Nat) :=
  if caption?.isNone ∧ category?.isNone then .ok (db, id)
  else
    (patchRow db.photos id (fun ph =>
        { ph with
          caption := match caption? with | some s => some s | none => ph.caption,
          category := match category? with | some c => some c | none => ph.category })).map
      (fun t => ({ db with photos := t }, id))

/-- photos.remove: unconditionally delete the one photo row. -/
def remove (db : DB) (id : Nat) : Except String DB :=
  (deleteRow db.photos id).map (fun t => { db with photos := t })

end Photos

namespace PA

/-- byUserAndProject compound index query, collected. -/
def byUserAndProject (db : DB) (userId projectId : Nat) : List (Row ProjectAssignment) :=
  db.projectAssignments.filter
    (fun r => decide (r.doc.userId = userId ∧ r.doc.projectId = projectId))

/-- projectAssignments.getUserProjects: assignments for the user, resolve each project, attach the role, drop the unresolved. -/
def getUserProjects (db : DB) (userId : Nat) : List (Row Project × Role) :=
  ((db.projectAssignments.filter (fun r => decide (r.doc.userId = userId))).map
    (fun a => (dbGet db.projects a.doc.projectId).map (fun p => (p, a.doc.role)))).reduceOption

/-- projectAssignments.getProjectUsers: assignments for the project, resolve each user, attach the role, drop the unresolved. -/
def getProjectUsers (db : DB) (projectId : Nat) : List (Row User × Role) :=
  ((db.projectAssignments.filter (fun r => decide (r.doc.projectId = projectId))).map
    (fun a => (dbGet db.users a.doc.userId).map (fun u => (u, a.doc.role)))).reduceOption

/-- projectAssignments.assign: look the pair up on the compound index with .unique(); patch the role when found, insert otherwise. -/
def assign (db : DB) (projectId userId : Nat) (role : Role) : Except String (DB × Nat) :=
  match uniqueRow (byUserAndProject db userId projectId) with
  | .error e => .error e
  | .ok (some existing) =>
    (patchRow db.projectAssignments existing._id (fun a => { a with role := role })).map
      (fun t => ({ db with projectAssignments := t }, existing._id))
  | .ok none =>
    .ok ({ db with
            projectAssignments :=
              insertRow db.projectAssignments db.nextId ⟨projectId, userId, role⟩,
            nextId := db.nextId + 1 }, db.nextId)

/-- projectAssignments.remove: look the pair up with .unique(); delete the row when found, otherwise do nothing. -/
def remove (db : DB) (projectId userId : Nat) : Except String DB :=
  match uniqueRow (byUserAndProject db userId projectId) with
  | .error e => .error e
  | .ok none => .ok db
  | .ok (some a) =>
    (deleteRow db.projectAssignments a._id).map
      (fun t => { db with projectAssignments := t })

end PA

/-- A concrete populated store: one client, one project, two visits, one photo
on the first visit, one user and one assignment. -/
def sampleDB : DB :=
  { clients := [⟨0, ⟨"Acme", "acme@example.com"⟩⟩],
    projects := [⟨1, ⟨0, "HQ", "1 Main St"⟩⟩],
    visits := [⟨2, ⟨1, 100, none, .splat, some "s.ply", none, none⟩⟩,
               ⟨3, ⟨1, 200, none, .video, none, some "v.mp4", none⟩⟩],
    photos := [⟨4, ⟨2, 9, "u4", none, some .general⟩⟩],
    projectAssignments := [⟨5, ⟨1, 6, .operator⟩⟩],
    users := [⟨6, ⟨"Olive", "ext6"⟩⟩],
    nextId := 7 }

/-- sampleDB with a second assignment whose project id resolves to nothing. -/
def danglingDB : DB :=
  { sampleDB with
    projectAssignments := [⟨5, ⟨1, 6, .operator⟩⟩, ⟨7, ⟨99, 6, .client⟩⟩],
    nextId := 8 }

/-- sampleDB after renaming its project, used to exercise update theorems. -/
def sampleDB' : DB := { sampleDB with projects := [⟨1, ⟨0, "HQ2", "1 Main St"⟩⟩] }

/-- The state produced by the patch branch of assign: one row's role rewritten. -/
def PA.rolePatched (db : DB) (id : Nat) (role : Role) : DB :=
  { db with projectAssignments := patchRows db.projectAssignments id (fun x => { x with role := role }) }

/-- The state produced by the insert branch of assign: a fresh assignment row. -/
def PA.inserted (db : DB) (projectId userId : Nat) (role : Role) : DB :=
  { db with projectAssignments := insertRow db.projectAssignments db.nextId ⟨projectId, userId, role⟩, nextId := db.nextId + 1 }

/-- The state visits.remove produces: the matching photos and the visit removed. -/
def Visits.removed (db : DB) (id : Nat) : DB :=
  { db with photos := db.photos.filter (fun r => ! decide (r.doc.visitId = id)), visits := db.visits.filter (fun r => decide (¬ r._id = id)) }

/-! ### Helper lemmas about the store primitives -/

theorem hasId_iff {α : Type} (t : List (Row α)) (id : Nat) :
    hasId t id = true ↔ ∃ r ∈ t, r._id = id := by
  simp [hasId]

theorem dbGet_eq_none {α : Type} (t : List (Row α)) (id : Nat) :
    dbGet t id = none ↔ ∀ r ∈ t, ¬ r._id = id := by
  simp [dbGet, List.find?_eq_none]

theorem dbGet_mem {α : Type} {t : List (Row α)} {id : Nat} {r : Row α}
    (h : dbGet t id = some r) : r ∈ t ∧ r._id = id := by
  have hm := List.mem_of_find?_eq_some h
  have hp := List.find?_some h
  simp only [decide_eq_true_eq] at hp
  exact ⟨hm, hp⟩

theorem dbGet_insert_self {α : Type} (t : List (Row α)) (id : Nat) (d : α)
    (h : ∀ r ∈ t, ¬ r._id = id) :
    dbGet (insertRow t id d) id = some ⟨id, d⟩ := by
  unfold dbGet insertRow
  induction t with
  | nil => simp
  | cons x xs ih =>
    have hx : ¬ x._id = id := h x (List.mem_cons_self x xs)
    simp only [List.cons_append, List.find?_cons, hx, decide_False]
    exact ih (fun r hr => h r (List.mem_cons_of_mem x hr))

theorem patchRow_ok {α : Type} (t : List (Row α)) (id : Nat) (f : α → α)
    (h : hasId t id = true) : patchRow t id f = .ok (patchRows t id f) := by
  simp [patchRow, h]

theorem deleteRow_ok {α : Type} (t : List (Row α)) (id : Nat)
    (h : hasId t id = true) :
    deleteRow t id = .ok (t.filter (fun r => decide (¬ r._id = id))) := by
  simp [deleteRow, h]

theorem length_patchRows {α : Type} (t : List (Row α)) (id : Nat) (f : α → α) :
    (patchRows t id f).length = t.length := by
  simp [patchRows]

theorem map_patchRows {α β : Type} (t : List (Row α)) (id : Nat) (f : α → α)
    (g : Row α → β) (h : ∀ r : Row α, g ⟨r._id, f r.doc⟩ = g r) :
    (patchRows t id f).map g = t.map g := by
  unfold patchRows
  rw [List.map_map]
  apply List.map_congr_left
  intro r _
  simp only [Function.comp_apply]
  by_cases hid : r._id = id
  · rw [if_pos hid]; exact h r
  · rw [if_neg hid]

theorem ids_injective {α : Type} {t : List (Row α)}
    (hnd : (t.map Row._id).Nodup) {r s : Row α}
    (hr : r ∈ t) (hs : s ∈ t) (hid : r._id = s._id) : r = s :=
  List.inj_on_of_nodup_map hnd hr hs hid

theorem patchRows_not_mem {α : Type} (t : List (Row α)) (id : Nat) (f : α → α)
    (h : ¬ id ∈ t.map Row._id) : patchRows t id f = t := by
  induction t with
  | nil => rfl
  | cons x xs ih =>
    simp only [List.map_cons, List.mem_cons, not_or] at h
    show (if x._id = id then Row.mk x._id (f x.doc) else x) :: patchRows xs id f = x :: xs
    rw [if_neg (fun hx => h.1 hx.symm), ih h.2]

theorem filter_patchRows_singleton {α : Type} (t : List (Row α)) (P : Row α → Bool)
    (a : Row α) (f : α → α)
    (hnd : (t.map Row._id).Nodup)
    (hf : t.filter P = [a])
    (hPa : P ⟨a._id, f a.doc⟩ = true) :
    (patchRows t a._id f).filter P = [⟨a._id, f a.doc⟩] := by
  induction t with
  | nil => simp at hf
  | cons x xs ih =>
    simp only [List.map_cons, List.nodup_cons] at hnd
    by_cases hPx : P x = true
    · rw [List.filter_cons_of_pos hPx] at hf
      have hx : x = a := (List.cons_eq_cons.mp hf).1
      have hxs : xs.filter P = [] := (List.cons_eq_cons.mp hf).2
      subst hx
      have hxs' : patchRows xs x._id f = xs :=
        patchRows_not_mem xs x._id f hnd.1
      show ((if x._id = x._id then Row.mk x._id (f x.doc) else x) ::
        patchRows xs x._id f).filter P = _
      rw [if_pos rfl, hxs', List.filter_cons_of_pos hPa, hxs]
    · rw [List.filter_cons_of_neg hPx] at hf
      have ha : a ∈ xs := List.mem_of_mem_filter (hf ▸ List.mem_cons_self a [])
      have hxa : ¬ x._id = a._id := by
        intro he
        exact hnd.1 (he ▸ List.mem_map_of_mem Row._id ha)
      show ((if x._id = a._id then Row.mk x._id (f x.doc) else x) ::
        patchRows xs a._id f).filter P = _
      rw [if_neg hxa, List.filter_cons_of_neg hPx]
      exact ih hnd.2 hf

theorem deletePhotos_spec (ps : List (Row Photo)) :
    ∀ t : List (Row Photo),
    (∀ p ∈ ps, p ∈ t) → (t.map Row._id).Nodup → (ps.map Row._id).Nodup →
    Visits.deletePhotos t ps =
      .ok (t.filter (fun r => decide (¬ r._id ∈ ps.map Row._id))) := by
  induction ps with
  | nil =>
    intro t _ _ _
    simp [Visits.deletePhotos]
  | cons p ps ih =>
    intro t hsub hndt hndps
    simp only [List.map_cons, List.nodup_cons] at hndps
    have hp : p ∈ t := hsub p (List.mem_cons_self p ps)
    have hhas : hasId t p._id = true := (hasId_iff t p._id).mpr ⟨p, hp, rfl⟩
    have ht₁ : ∀ q ∈ ps, q ∈ t.filter (fun r => decide (¬ r._id = p._id)) := by
      intro q hq
      have hqt : q ∈ t := hsub q (List.mem_cons_of_mem p hq)
      have hqid : ¬ q._id = p._id := by
        intro he
        exact hndps.1 (he ▸ List.mem_map_of_mem Row._id hq)
      exact List.mem_filter.mpr ⟨hqt, by simpa using hqid⟩
    have hndt₁ :
        ((t.filter (fun r => decide (¬ r._id = p._id))).map Row._id).Nodup :=
      ((List.filter_sublist t).map Row._id).nodup hndt
    simp only [Visits.deletePhotos]
    rw [deleteRow_ok t p._id hhas]
    simp only []
    rw [ih (t.filter (fun r => decide (¬ r._id = p._id))) ht₁ hndt₁ hndps.2]
    congr 1
    rw [List.filter_filter]
    apply List.filter_congr
    intro r _
    simp [not_or, Bool.and_comm]

theorem filter_not_mem_filter_ids {α : Type} (t : List (Row α)) (Q : Row α → Bool)
    (hnd : (t.map Row._id).Nodup) :
    t.filter (fun r => decide (¬ r._id ∈ (t.filter Q).map Row._id)) =
    t.filter (fun r => ! Q r) := by
  apply List.filter_congr
  intro r hr
  by_cases hQ : Q r = true
  · have hm : r._id ∈ (t.filter Q).map Row._id :=
      List.mem_map_of_mem Row._id (List.mem_filter.mpr ⟨hr, hQ⟩)
    simp [hm, hQ]
  · have hm : ¬ r._id ∈ (t.filter Q).map Row._id := by
      intro hmem
      obtain ⟨s, hs, hsid⟩ := List.mem_map.mp hmem
      have hs' := List.mem_filter.mp hs
      have hsr : s = r := ids_injective hnd hs'.1 hr hsid
      exact hQ (hsr ▸ hs'.2)
    simp only [Bool.not_eq_true] at hQ
    simp [hm, hQ]

theorem except_map_ok {ε α β : Type} {f : α → β} {e : Except ε α} {b : β}
    (h : e.map f = .ok b) : ∃ a, e = .ok a ∧ b = f a := by
  cases e with
  | error err => simp [Except.map] at h
  | ok a =>
    simp only [Except.map] at h
    exact ⟨a, rfl, (Except.ok.inj h).symm⟩

theorem patchRow_ok_inv {α : Type} {t t' : List (Row α)} {id : Nat} {f : α → α}
    (h : patchRow t id f = .ok t') : t' = patchRows t id f := by
  unfold patchRow at h
  split at h
  · exact (Except.ok.inj h).symm
  · simp at h

theorem deleteRow_ok_inv {α : Type} {t t' : List (Row α)} {id : Nat}
    (h : deleteRow t id = .ok t') :
    t' = t.filter (fun r => decide (¬ r._id = id)) := by
  unfold deleteRow at h
  split at h
  · exact (Except.ok.inj h).symm
  · simp at h

theorem uniqueRow_error_of_two {α : Type} (t : List (Row α)) (h : 2 ≤ t.length) :
    ∃ msg, uniqueRow t = .error msg := by
  cases t with
  | nil => simp at h
  | cons a t' =>
    cases t' with
    | nil => simp at h
    | cons b l => exact ⟨_, rfl⟩

theorem tableOk_fresh {α : Type} {t : List (Row α)} {n : Nat} (h : tableOk t n) :
    ∀ r ∈ t, ¬ r._id = n :=
  fun r hr he => absurd (he ▸ h.2 r hr) (lt_irrefl n)

theorem tableOk_insert_nodup {α : Type} {t : List (Row α)} {n : Nat}
    (h : tableOk t n) (d : α) : ((insertRow t n d).map Row._id).Nodup := by
  unfold insertRow
  rw [List.map_append]
  apply List.Nodup.append h.1 (List.nodup_singleton n)
  intro x hx hx2
  simp only [List.map_cons, List.map_nil, List.mem_singleton] at hx2
  subst hx2
  obtain ⟨rr, hrr, hid⟩ := List.mem_map.mp hx
  exact tableOk_fresh h rr hrr hid

theorem map_id_patchRows {α : Type} (t : List (Row α)) (id : Nat) (f : α → α) :
    (patchRows t id f).map Row._id = t.map Row._id :=
  map_patchRows t id f Row._id (fun _ => rfl)

/-! ### Claim theorems -/

/-- C3: for every entity, calling update with every optional field omitted is a
no-op: no patch is issued, the store is unchanged, and the same id is returned. -/
theorem C3_update_no_fields_noop (db : DB) (id : Nat) :
    Clients.update db id none none = .ok (db, id) ∧
    Projects.update db id none none = .ok (db, id) ∧
    Visits.update db id none none none none none none = .ok (db, id) ∧
    Photos.update db id none none = .ok (db, id) := by
  refine ⟨?_, ?_, ?_, ?_⟩ <;>
    simp [Clients.update, Projects.update, Visits.update, Photos.update]

/-- C5: projects.list scoped by a clientId returns exactly the projects whose
clientId equals the argument and none with a different clientId; with no
clientId argument it returns every project. -/
theorem C5_projects_list_index_scoped (db : DB) (cid : Nat) :
    (∀ r : Row Project,
      r ∈ Projects.list db (some cid) ↔ r ∈ db.projects ∧ r.doc.clientId = cid) ∧
    Projects.list db none = db.projects := by
  refine ⟨fun r => ?_, rfl⟩
  simp [Projects.list, List.mem_filter]

/-- C6: the Visit-with-Photos resolver returns the absence sentinel (not an
error, not a partial object) when the id resolves to no visit; for an existing
visit it returns the visit merged with every photo whose visitId matches. -/
theorem C6_visit_with_photos_resolver (db : DB) (id : Nat) :
    (dbGet db.visits id = none → Visits.get db id = none) ∧
    ∀ w : Row Visit, dbGet db.visits id = some w →
      Visits.get db id = some (w, photosByVisitId db id) := by
  constructor
  · intro h; simp [Visits.get, h]
  · intro w h; simp [Visits.get, h]

theorem C6_visit_with_photos_resolver_witness :
    Visits.get sampleDB 99 = none ∧
    Visits.get sampleDB 3 =
      some (⟨3, ⟨1, 200, none, .video, none, some "v.mp4", none⟩⟩, []) :=
  ⟨(C6_visit_with_photos_resolver sampleDB 99).1 rfl,
   (C6_visit_with_photos_resolver sampleDB 3).2
     ⟨3, ⟨1, 200, none, .video, none, some "v.mp4", none⟩⟩ rfl⟩

/-- C4: for every entity, calling get on the id returned by create yields a
record whose fields equal the fields passed to create. -/
theorem C4_get_after_create (db : DB) (hwf : WF db) :
    (∀ n e,
      (Clients.get (Clients.create db n e).1 (Clients.create db n e).2).map Row.doc =
        some ⟨n, e⟩) ∧
    (∀ cid n a,
      (Projects.get (Projects.create db cid n a).1
        (Projects.create db cid n a).2).map Row.doc = some ⟨cid, n, a⟩) ∧
    (∀ pid d nt et s v y,
      (Visits.get (Visits.create db pid d nt et s v y).1
        (Visits.create db pid d nt et s v y).2).map (fun pr => pr.1.doc) =
        some ⟨pid, d, nt, et, s, v, y⟩) ∧
    (∀ vid sid url cap cat,
      (Photos.get (Photos.create db vid sid url cap cat).1
        (Photos.create db vid sid url cap cat).2).map Row.doc =
        some ⟨vid, sid, url, cap, cat⟩) := by
  refine ⟨?_, ?_, ?_, ?_⟩
  · intro n e
    have h := dbGet_insert_self db.clients db.nextId ⟨n, e⟩ (tableOk_fresh hwf.1)
    simp [Clients.get, Clients.create, h]
  · intro cid n a
    have h := dbGet_insert_self db.projects db.nextId ⟨cid, n, a⟩ (tableOk_fresh hwf.2.1)
    simp [Projects.get, Projects.create, h]
  · intro pid d nt et s v y
    have h := dbGet_insert_self db.visits db.nextId ⟨pid, d, nt, et, s, v, y⟩
      (tableOk_fresh hwf.2.2.1)
    simp [Visits.get, Visits.create, h]
  · intro vid sid url cap cat
    have h := dbGet_insert_self db.photos db.nextId ⟨vid, sid, url, cap, cat⟩
      (tableOk_fresh hwf.2.2.2.1)
    simp [Photos.get, Photos.create, h]

theorem C4_get_after_create_witness :
    (Clients.get (Clients.create sampleDB "Beta" "b@x.io").1
      (Clients.create sampleDB "Beta" "b@x.io").2).map Row.doc =
      some ⟨"Beta", "b@x.io"⟩ :=
  (C4_get_after_create sampleDB (by decide)).1 "Beta" "b@x.io"

/-- C10: parent foreign keys are immutable under the public update mutations:
projects.update leaves every row's clientId unchanged, visits.update leaves
every row's projectId unchanged, and photos.update leaves every row's visitId,
storageId and fileUrl unchanged (none of them is even an argument). -/
theorem C10_foreign_keys_immutable (db : DB) (id : Nat) :
    (∀ name? address? db' rid,
      Projects.update db id name? address? = .ok (db', rid) →
      db'.projects.map (fun r => (r._id, r.doc.clientId)) =
        db.projects.map (fun r => (r._id, r.doc.clientId))) ∧
    (∀ date? notes? exteriorType? splatUrl? videoUrl? youtube360Url? db' rid,
      Visits.update db id date? notes? exteriorType? splatUrl? videoUrl?
        youtube360Url? = .ok (db', rid) →
      db'.visits.map (fun r => (r._id, r.doc.projectId)) =
        db.visits.map (fun r => (r._id, r.doc.projectId))) ∧
    (∀ caption? category? db' rid,
      Photos.update db id caption? category? = .ok (db', rid) →
      db'.photos.map (fun r => (r._id, r.doc.visitId, r.doc.storageId, r.doc.fileUrl)) =
        db.photos.map (fun r => (r._id, r.doc.visitId, r.doc.storageId, r.doc.fileUrl))) := by
  refine ⟨?_, ?_, ?_⟩
  · intro name? address? db' rid h
    unfold Projects.update at h
    split at h
    · cases h; rfl
    · obtain ⟨t, hpr, heq⟩ := except_map_ok h
      have hdb : db' = { db with projects := t } := congrArg Prod.fst heq
      have ht := patchRow_ok_inv hpr
      subst ht
      rw [hdb]
      exact map_patchRows db.projects id
        (fun p => { p with name := name?.getD p.name, address := address?.getD p.address })
        (fun r => (r._id, r.doc.clientId)) (fun r => rfl)
  · intro date? notes? exteriorType? splatUrl? videoUrl? youtube360Url? db' rid h
    unfold Visits.update at h
    split at h
    · cases h; rfl
    · obtain ⟨t, hpr, heq⟩ := except_map_ok h
      have hdb : db' = { db with visits := t } := congrArg Prod.fst heq
      rw [hdb]
      show t.map (fun r => (r._id, r.doc.projectId)) =
        db.visits.map (fun r => (r._id, r.doc.projectId))
      rw [patchRow_ok_inv hpr]
      refine map_patchRows db.visits id _ _ ?_
      intro r
      rfl
  · intro caption? category? db' rid h
    unfold Photos.update at h
    split at h
    · cases h; rfl
    · obtain ⟨t, hpr, heq⟩ := except_map_ok h
      have hdb : db' = { db with photos := t } := congrArg Prod.fst heq
      rw [hdb]
      show t.map (fun r => (r._id, r.doc.visitId, r.doc.storageId, r.doc.fileUrl)) =
        db.photos.map (fun r => (r._id, r.doc.visitId, r.doc.storageId, r.doc.fileUrl))
      rw [patchRow_ok_inv hpr]
      refine map_patchRows db.photos id _ _ ?_
      intro r
      rfl

theorem C10_foreign_keys_immutable_witness :
    sampleDB'.projects.map (fun r => (r._id, r.doc.clientId)) =
      sampleDB.projects.map (fun r => (r._id, r.doc.clientId)) :=
  (C10_foreign_keys_immutable sampleDB 1).1 (some "HQ2") none sampleDB' 1 rfl

/-- C7: getUserProjects and getProjectUsers silently drop assignment rows whose
parent no longer resolves: the result has exactly one entry per assignment
whose parent resolves, and every entry comes from a matching assignment,
resolves that assignment's parent, and carries that assignment's role. -/
theorem C7_dangling_refs_filtered (db : DB) (uid pid : Nat) :
    ((PA.getUserProjects db uid).length =
      ((db.projectAssignments.filter (fun r => decide (r.doc.userId = uid))).filter
        (fun a => (dbGet db.projects a.doc.projectId).isSome)).length ∧
     ∀ x ∈ PA.getUserProjects db uid, ∃ a ∈ db.projectAssignments,
       a.doc.userId = uid ∧ dbGet db.projects a.doc.projectId = some x.1 ∧
       x.2 = a.doc.role) ∧
    ((PA.getProjectUsers db pid).length =
      ((db.projectAssignments.filter (fun r => decide (r.doc.projectId = pid))).filter
        (fun a => (dbGet db.users a.doc.userId).isSome)).length ∧
     ∀ x ∈ PA.getProjectUsers db pid, ∃ a ∈ db.projectAssignments,
       a.doc.projectId = pid ∧ dbGet db.users a.doc.userId = some x.1 ∧
       x.2 = a.doc.role) := by
  refine ⟨⟨?_, ?_⟩, ⟨?_, ?_⟩⟩
  · unfold PA.getUserProjects
    rw [List.reduceOption_length_eq, List.filter_map, List.length_map]
    apply congrArg
    apply List.filter_congr
    intro a _
    simp
  · intro x hx
    have hx' := List.reduceOption_mem_iff.mp hx
    obtain ⟨a, ha, hfa⟩ := List.mem_map.mp hx'
    have hau : a.doc.userId = uid := by
      have := (List.mem_filter.mp ha).2
      simpa using this
    cases hg : dbGet db.projects a.doc.projectId with
    | none => rw [hg] at hfa; simp at hfa
    | some p =>
      rw [hg] at hfa
      simp only [Option.map_some'] at hfa
      have hx2 := Option.some.inj hfa
      refine ⟨a, (List.mem_filter.mp ha).1, hau, ?_, ?_⟩
      · rw [hg, ← hx2]
      · rw [← hx2]
  · unfold PA.getProjectUsers
    rw [List.reduceOption_length_eq, List.filter_map, List.length_map]
    apply congrArg
    apply List.filter_congr
    intro a _
    simp
  · intro x hx
    have hx' := List.reduceOption_mem_iff.mp hx
    obtain ⟨a, ha, hfa⟩ := List.mem_map.mp hx'
    have hap : a.doc.projectId = pid := by
      have := (List.mem_filter.mp ha).2
      simpa using this
    cases hg : dbGet db.users a.doc.userId with
    | none => rw [hg] at hfa; simp at hfa
    | some u =>
      rw [hg] at hfa
      simp only [Option.map_some'] at hfa
      have hx2 := Option.some.inj hfa
      refine ⟨a, (List.mem_filter.mp ha).1, hap, ?_, ?_⟩
      · rw [hg, ← hx2]
      · rw [← hx2]

theorem C7_dangling_refs_filtered_witness :
    (PA.getUserProjects danglingDB 6).length = 1 ∧
    ∃ a ∈ danglingDB.projectAssignments, a.doc.userId = 6 ∧
      dbGet danglingDB.projects a.doc.projectId =
        some (⟨1, ⟨0, "HQ", "1 Main St"⟩⟩ : Row Project) ∧
      (Role.operator : Role) = a.doc.role :=
  ⟨by rw [(C7_dangling_refs_filtered danglingDB 6 1).1.1]; rfl,
   (C7_dangling_refs_filtered danglingDB 6 1).1.2
     (⟨1, ⟨0, "HQ", "1 Main St"⟩⟩, Role.operator)
     (List.mem_singleton_self _)⟩

/-- C9: getByEmail returns none when no client carries the email, the single
client when exactly one does, and raises the .unique() error when two or more
share it — a reachable state because create never checks email uniqueness. -/
theorem C9_getByEmail_unique_error (db : DB) (email n n' : String) :
    (db.clients.filter (fun r => decide (r.doc.email = email)) = [] →
      Clients.getByEmail db email = .ok none) ∧
    (∀ c, db.clients.filter (fun r => decide (r.doc.email = email)) = [c] →
      Clients.getByEmail db email = .ok (some c)) ∧
    (2 ≤ (db.clients.filter (fun r => decide (r.doc.email = email))).length →
      ∃ msg, Clients.getByEmail db email = .error msg) ∧
    (∃ msg, Clients.getByEmail
        (Clients.create (Clients.create db n email).1 n' email).1 email =
      .error msg) := by
  refine ⟨?_, ?_, ?_, ?_⟩
  · intro h
    unfold Clients.getByEmail
    rw [h]
    rfl
  · intro c h
    unfold Clients.getByEmail
    rw [h]
    rfl
  · intro h
    exact uniqueRow_error_of_two _ h
  · apply uniqueRow_error_of_two
    simp [Clients.create, insertRow, List.filter_append]

theorem C9_getByEmail_unique_error_witness :
    Clients.getByEmail emptyDB "x@y.z" = .ok none ∧
    ∃ msg, Clients.getByEmail
        (Clients.create (Clients.create emptyDB "A" "x@y.z").1 "B" "x@y.z").1 "x@y.z" =
      .error msg :=
  ⟨(C9_getByEmail_unique_error emptyDB "x@y.z" "A" "B").1 rfl,
   (C9_getByEmail_unique_error emptyDB "x@y.z" "A" "B").2.2.2⟩

/-- C8: removing a Client, a Project or a ProjectAssignment performs no
cascade: only the targeted row disappears and every other table is untouched. -/
theorem C8_remove_no_cascade (db : DB) (id pid uid : Nat) :
    (hasId db.clients id = true →
      ∃ db', Clients.remove db id = .ok db' ∧
        db'.clients = db.clients.filter (fun r => decide (¬ r._id = id)) ∧
        db'.projects = db.projects ∧ db'.visits = db.visits ∧
        db'.photos = db.photos ∧
        db'.projectAssignments = db.projectAssignments ∧ db'.users = db.users) ∧
    (hasId db.projects id = true →
      ∃ db', Projects.remove db id = .ok db' ∧
        db'.projects = db.projects.filter (fun r => decide (¬ r._id = id)) ∧
        db'.clients = db.clients ∧ db'.visits = db.visits ∧
        db'.photos = db.photos ∧
        db'.projectAssignments = db.projectAssignments ∧ db'.users = db.users) ∧
    ((db.projectAssignments.map Row._id).Nodup →
      (PA.byUserAndProject db uid pid).length ≤ 1 →
      ∃ db', PA.remove db pid uid = .ok db' ∧
        db'.projectAssignments = db.projectAssignments.filter
          (fun r => decide (¬ (r.doc.userId = uid ∧ r.doc.projectId = pid))) ∧
        db'.clients = db.clients ∧ db'.projects = db.projects ∧
        db'.visits = db.visits ∧ db'.photos = db.photos ∧ db'.users = db.users) := by
  refine ⟨?_, ?_, ?_⟩
  · intro h
    refine ⟨{ db with clients := db.clients.filter (fun r => decide (¬ r._id = id)) },
      ?_, rfl, rfl, rfl, rfl, rfl, rfl⟩
    unfold Clients.remove
    rw [deleteRow_ok db.clients id h]
    rfl
  · intro h
    refine ⟨{ db with projects := db.projects.filter (fun r => decide (¬ r._id = id)) },
      ?_, rfl, rfl, rfl, rfl, rfl, rfl⟩
    unfold Projects.remove
    rw [deleteRow_ok db.projects id h]
    rfl
  · intro hnd hlen
    rcases hpair : PA.byUserAndProject db uid pid with _ | ⟨a, rest⟩
    · refine ⟨db, ?_, ?_, rfl, rfl, rfl, rfl, rfl⟩
      · unfold PA.remove
        rw [hpair]
        rfl
      · symm
        apply List.filter_eq_self.mpr
        intro r hr
        simp only [decide_eq_true_eq]
        intro hpairr
        have hrmem : r ∈ PA.byUserAndProject db uid pid :=
          List.mem_filter.mpr ⟨hr, by simpa using hpairr⟩
        rw [hpair] at hrmem
        simp at hrmem
    · cases rest with
      | cons b l =>
        rw [hpair] at hlen
        simp at hlen
      | nil =>
        have hamem : a ∈ db.projectAssignments := by
          have : a ∈ PA.byUserAndProject db uid pid := by
            rw [hpair]; exact List.mem_singleton_self a
          exact List.mem_of_mem_filter this
        have hpa : a.doc.userId = uid ∧ a.doc.projectId = pid := by
          have : a ∈ PA.byUserAndProject db uid pid := by
            rw [hpair]; exact List.mem_singleton_self a
          have := (List.mem_filter.mp this).2
          simpa using this
        have hhas : hasId db.projectAssignments a._id = true :=
          (hasId_iff _ _).mpr ⟨a, hamem, rfl⟩
        refine ⟨{ db with projectAssignments :=
            db.projectAssignments.filter (fun r => decide (¬ r._id = a._id)) },
          ?_, ?_, rfl, rfl, rfl, rfl, rfl⟩
        · unfold PA.remove
          rw [hpair]
          show (deleteRow db.projectAssignments a._id).map _ = _
          rw [deleteRow_ok _ _ hhas]
          rfl
        · show db.projectAssignments.filter (fun r => decide (¬ r._id = a._id)) = _
          apply List.filter_congr
          intro r hr
          have hiff : (r._id = a._id) ↔ (r.doc.userId = uid ∧ r.doc.projectId = pid) := by
            constructor
            · intro hid
              have hra : r = a := ids_injective hnd hr hamem hid
              rw [hra]; exact hpa
            · intro hpairr
              have hrmem : r ∈ PA.byUserAndProject db uid pid :=
                List.mem_filter.mpr ⟨hr, by simpa using hpairr⟩
              rw [hpair] at hrmem
              rw [List.eq_of_mem_singleton hrmem]
          simp only [decide_eq_decide]
          exact not_congr hiff

theorem C8_remove_no_cascade_witness :
    (∃ db', Clients.remove sampleDB 0 = .ok db' ∧
      db'.clients = sampleDB.clients.filter (fun r => decide (¬ r._id = 0)) ∧
      db'.projects = sampleDB.projects ∧ db'.visits = sampleDB.visits ∧
      db'.photos = sampleDB.photos ∧
      db'.projectAssignments = sampleDB.projectAssignments ∧
      db'.users = sampleDB.users) ∧
    (∃ db', PA.remove sampleDB 1 6 = .ok db' ∧
      db'.projectAssignments = sampleDB.projectAssignments.filter
        (fun r => decide (¬ (r.doc.userId = 6 ∧ r.doc.projectId = 1))) ∧
      db'.clients = sampleDB.clients ∧ db'.projects = sampleDB.projects ∧
      db'.visits = sampleDB.visits ∧ db'.photos = sampleDB.photos ∧
      db'.users = sampleDB.users) :=
  ⟨(C8_remove_no_cascade sampleDB 0 1 6).1 rfl,
   (C8_remove_no_cascade sampleDB 0 1 6).2.2 (by decide) (by decide)⟩

theorem rolePatched_length (db : DB) (id : Nat) (role : Role) :
    (PA.rolePatched db id role).projectAssignments.length =
      db.projectAssignments.length := by
  show (patchRows db.projectAssignments id (fun x => { x with role := role })).length =
    db.projectAssignments.length
  exact length_patchRows _ _ _

/-- One assign call on a state whose (userId, projectId) slice is the single
row a: it patches that row's role in place and returns a's id. -/
theorem assign_patch_step (db : DB) (pid uid : Nat) (r' : Role)
    (a : Row ProjectAssignment)
    (hnd : (db.projectAssignments.map Row._id).Nodup)
    (hpair : PA.byUserAndProject db uid pid = [a]) :
    PA.assign db pid uid r' = .ok (PA.rolePatched db a._id r', a._id) ∧
    PA.byUserAndProject (PA.rolePatched db a._id r') uid pid =
      [⟨a._id, ⟨pid, uid, r'⟩⟩] := by
  have hamem : a ∈ db.projectAssignments := by
    have : a ∈ PA.byUserAndProject db uid pid := by
      rw [hpair]; exact List.mem_singleton_self a
    exact List.mem_of_mem_filter this
  have hpa : a.doc.userId = uid ∧ a.doc.projectId = pid := by
    have : a ∈ PA.byUserAndProject db uid pid := by
      rw [hpair]; exact List.mem_singleton_self a
    have := (List.mem_filter.mp this).2
    simpa using this
  have hhas : hasId db.projectAssignments a._id = true :=
    (hasId_iff _ _).mpr ⟨a, hamem, rfl⟩
  constructor
  · unfold PA.assign
    rw [hpair]
    show (patchRow db.projectAssignments a._id (fun x => { x with role := r' })).map _ = _
    rw [patchRow_ok _ _ _ hhas]
    rfl
  · have hf : db.projectAssignments.filter
        (fun rr => decide (rr.doc.userId = uid ∧ rr.doc.projectId = pid)) = [a] := hpair
    have hPa : (fun rr : Row ProjectAssignment =>
        decide (rr.doc.userId = uid ∧ rr.doc.projectId = pid))
        ⟨a._id, { a.doc with role := r' }⟩ = true := by
      simp [hpa.1, hpa.2]
    have hres := filter_patchRows_singleton db.projectAssignments
      (fun rr => decide (rr.doc.userId = uid ∧ rr.doc.projectId = pid)) a
      (fun x => { x with role := r' }) hnd hf hPa
    show (patchRows db.projectAssignments a._id (fun x => { x with role := r' })).filter
      (fun rr => decide (rr.doc.userId = uid ∧ rr.doc.projectId = pid)) = _
    rw [hres]
    simp [hpa.1, hpa.2]

/-- C2: assign is an idempotent upsert per (userId, projectId): from a state
with at most one row for the pair, the first call leaves exactly one row for
the pair, and a second call - same pair, any role - returns the same id,
patches that same row's role, and inserts nothing. -/
theorem C2_assign_upsert (db : DB) (pid uid : Nat) (r r' : Role)
    (hwf : WF db) (hlen : (PA.byUserAndProject db uid pid).length ≤ 1) :
    ∃ db₁ id₁ db₂,
      PA.assign db pid uid r = .ok (db₁, id₁) ∧
      PA.byUserAndProject db₁ uid pid = [⟨id₁, ⟨pid, uid, r⟩⟩] ∧
      PA.assign db₁ pid uid r' = .ok (db₂, id₁) ∧
      PA.byUserAndProject db₂ uid pid = [⟨id₁, ⟨pid, uid, r'⟩⟩] ∧
      db₂.projectAssignments.length = db₁.projectAssignments.length := by
  have hnd : (db.projectAssignments.map Row._id).Nodup := hwf.2.2.2.2.1.1
  rcases hpair : PA.byUserAndProject db uid pid with _ | ⟨a, rest⟩
  · have h1 : PA.assign db pid uid r = .ok (PA.inserted db pid uid r, db.nextId) := by
      unfold PA.assign
      rw [hpair]
      rfl
    have hpair' : db.projectAssignments.filter
        (fun rr => decide (rr.doc.userId = uid ∧ rr.doc.projectId = pid)) = [] := hpair
    have hp1 : PA.byUserAndProject (PA.inserted db pid uid r) uid pid =
        [⟨db.nextId, ⟨pid, uid, r⟩⟩] := by
      show (insertRow db.projectAssignments db.nextId ⟨pid, uid, r⟩).filter _ = _
      unfold insertRow
      rw [List.filter_append, hpair']
      simp
    have hnd1 : ((PA.inserted db pid uid r).projectAssignments.map Row._id).Nodup :=
      tableOk_insert_nodup hwf.2.2.2.2.1 _
    obtain ⟨h2, hp2⟩ := assign_patch_step (PA.inserted db pid uid r) pid uid r'
      ⟨db.nextId, ⟨pid, uid, r⟩⟩ hnd1 hp1
    exact ⟨_, db.nextId, _, h1, hp1, h2, hp2, rolePatched_length _ _ _⟩
  · cases rest with
    | cons b l =>
      rw [hpair] at hlen
      simp at hlen
    | nil =>
      obtain ⟨h1, hp1⟩ := assign_patch_step db pid uid r a hnd hpair
      have hnd1 : ((PA.rolePatched db a._id r).projectAssignments.map Row._id).Nodup := by
        show ((patchRows db.projectAssignments a._id (fun x => { x with role := r })).map Row._id).Nodup
        rw [map_id_patchRows]
        exact hnd
      obtain ⟨h2, hp2⟩ := assign_patch_step (PA.rolePatched db a._id r) pid uid r'
        ⟨a._id, ⟨pid, uid, r⟩⟩ hnd1 hp1
      exact ⟨_, a._id, _, h1, hp1, h2, hp2, rolePatched_length _ _ _⟩

theorem C2_assign_upsert_witness :
    ∃ db₁ id₁ db₂,
      PA.assign sampleDB 1 6 .client = .ok (db₁, id₁) ∧
      PA.byUserAndProject db₁ 6 1 = [⟨id₁, ⟨1, 6, .client⟩⟩] ∧
      PA.assign db₁ 1 6 .operator = .ok (db₂, id₁) ∧
      PA.byUserAndProject db₂ 6 1 = [⟨id₁, ⟨1, 6, .operator⟩⟩] ∧
      db₂.projectAssignments.length = db₁.projectAssignments.length :=
  C2_assign_upsert sampleDB 1 6 .client .operator (by decide) (by decide)

/-- C1: removing a Visit first deletes every Photo whose visitId equals the
visit's id and then the Visit itself: afterwards the photo list for that
visitId is empty, the visit is absent, exactly the matching photos are gone,
and every other table is untouched. -/
theorem C1_visit_remove_cascade (db : DB) (id : Nat)
    (hwf : WF db) (hvis : hasId db.visits id = true) :
    ∃ db', Visits.remove db id = .ok db' ∧
      Photos.list db' id = [] ∧
      Visits.get db' id = none ∧
      db'.photos = db.photos.filter (fun r => ! decide (r.doc.visitId = id)) ∧
      db'.visits = db.visits.filter (fun r => decide (¬ r._id = id)) ∧
      db'.clients = db.clients ∧ db'.projects = db.projects ∧
      db'.projectAssignments = db.projectAssignments ∧ db'.users = db.users := by
  have hndph : (db.photos.map Row._id).Nodup := hwf.2.2.2.1.1
  have hsub : ∀ p ∈ photosByVisitId db id, p ∈ db.photos :=
    fun p hp => List.mem_of_mem_filter hp
  have hndps : ((photosByVisitId db id).map Row._id).Nodup :=
    ((List.filter_sublist db.photos).map Row._id).nodup hndph
  have hdel := deletePhotos_spec (photosByVisitId db id) db.photos hsub hndph hndps
  have hphotos : db.photos.filter
      (fun r => decide (¬ r._id ∈ (photosByVisitId db id).map Row._id)) =
      db.photos.filter (fun r => ! decide (r.doc.visitId = id)) :=
    filter_not_mem_filter_ids db.photos (fun r => decide (r.doc.visitId = id)) hndph
  rw [hphotos] at hdel
  refine ⟨Visits.removed db id, ?_, ?_, ?_, rfl, rfl, rfl, rfl, rfl, rfl⟩
  · unfold Visits.remove
    rw [hdel, deleteRow_ok db.visits id hvis]
    rfl
  · show (db.photos.filter (fun r => ! decide (r.doc.visitId = id))).filter
      (fun r => decide (r.doc.visitId = id)) = []
    rw [List.filter_filter]
    simp [Bool.and_not_self]
  · have hnone : dbGet (Visits.removed db id).visits id = none := by
      apply (dbGet_eq_none _ _).mpr
      intro rr hrr
      have h2 := (List.mem_filter.mp hrr).2
      simpa using h2
    simp [Visits.get, hnone]

theorem C1_visit_remove_cascade_witness :
    ∃ db', Visits.remove sampleDB 2 = .ok db' ∧
      Photos.list db' 2 = [] ∧
      Visits.get db' 2 = none ∧
      db'.photos = sampleDB.photos.filter (fun r => ! decide (r.doc.visitId = 2)) ∧
      db'.visits = sampleDB.visits.filter (fun r => decide (¬ r._id = 2)) ∧
      db'.clients = sampleDB.clients ∧ db'.projects = sampleDB.projects ∧
      db'.projectAssignments = sampleDB.projectAssignments ∧
      db'.users = sampleDB.users :=
  C1_visit_remove_cascade sampleDB 2 (by decide) (by decide)

end SiteView